import Mathlib

/-!
Shallow embedding of the Excel-Automation backend transformation services
(`data_cleaning_service.py`, `calculations_service.py`, `pivot_service.py`)
and proofs about them.

Modelling conventions:
* A pandas cell is modelled by `Value`: missing (`NaN`/`None`) cells are
  `Value.null`; numeric cells are modelled as integers (the floating-point
  width of pandas is outside the model — all inputs of interest are
  integer-valued); text cells are `Value.str`; boolean cells `Value.bool`.
* A `DataFrame` is modelled by `Table`: an ordered header plus row-major
  cell lists.  Well-formedness (every row as long as the header) is an
  explicit predicate, not enforced by the type.
* Exceptions are modelled by `Except String`; the text of a raised message
  follows the wording of the source (or of CPython/numpy/pandas where the
  source re-raises a library error).
* Python singly-quoted fragments inside messages are built with `sq`
  (the apostrophe character) to reproduce the exact message text.
-/

namespace ExcelAutomation

/-- The apostrophe character, used to reproduce Python message texts. -/
def sq : String := String.singleton (Char.ofNat 39)

/-- A cell value of the columnar data model.  `null` stands for a missing
cell (pandas `NaN` / `None`). -/
inductive Value where
  | null
  | int (z : Int)
  | str (s : String)
  | bool (b : Bool)
deriving DecidableEq, Repr, Inhabited

/-- Is this cell missing?  (pandas `isna`). -/
def isNull : Value → Bool
  | .null => true
  | _ => false

/-- Is this cell numeric or missing (an `int64`/`float64`-dtype cell)? -/
def isNumOrNull : Value → Bool
  | .null => true
  | .int _ => true
  | .bool _ => true
  | .str _ => false

/-- Numeric reading of a cell with missing-as-zero, the convention of
pandas null-skipping sums (Python `bool` is an `int`). -/
def intOrZero : Value → Int
  | .null => 0
  | .int z => z
  | .bool b => if b then 1 else 0
  | .str _ => 0

/-- Python `str(...)` of a cell, as produced by `Series.astype(str)`:
a missing cell renders as the text of `NaN`, i.e. `"nan"` (an
object-dtype `None` would render `"None"`; either way the coercion of a
missing cell is a non-empty text, which is what matters below). -/
def pyStr : Value → String
  | .null => "nan"
  | .int z => toString z
  | .str s => s
  | .bool b => if b then "True" else "False"

/-- A pandas `DataFrame`: ordered column names and row-major cells. -/
structure Table where
  header : List String
  rows : List (List Value)
deriving DecidableEq, Repr, Inhabited

/-- Well-formedness: every row has exactly one cell per column. -/
def Table.WF (t : Table) : Prop :=
  ∀ r ∈ t.rows, r.length = t.header.length

instance (t : Table) : Decidable t.WF := by
  unfold Table.WF; infer_instance

/-- Cell of row `r` in the column named `c` (call sites validate that the
column exists first, mirroring the `KeyError`-free paths of the source). -/
def cellAt (t : Table) (r : List Value) (c : String) : Value :=
  match t.header.findIdx? (· == c) with
  | some i => r.getD i .null
  | none => .null

/-- The column named `c` as a list of cells (`df[c]`). -/
def getCol (t : Table) (c : String) : List Value :=
  t.rows.map (fun r => cellAt t r c)

/-- Column assignment `df[c] = vals`: replaces the column if the name
exists, otherwise appends it on the right (pandas assignment semantics). -/
def setCol (t : Table) (c : String) (vals : List Value) : Table :=
  match t.header.findIdx? (· == c) with
  | some i => { t with rows := t.rows.zipWith (fun r v => r.set i v) vals }
  | none => { header := t.header ++ [c], rows := t.rows.zipWith (fun r v => r ++ [v]) vals }

/-- Does the row contain no missing cell? -/
def rowComplete (r : List Value) : Bool :=
  r.all (fun v => !(isNull v))

/-- `df.dropna()`: keep exactly the rows with no missing cell. -/
def dropNaTable (t : Table) : Table :=
  { t with rows := t.rows.filter rowComplete }

/-- `df.fillna(v)`: replace every missing cell by `v`. -/
def fillNaTable (t : Table) (v : Value) : Table :=
  { t with rows := t.rows.map (fun r => r.map (fun c => if isNull c then v else c)) }

/-- `df.isna().sum().sum()`: the number of missing cells of the table. -/
def countNulls (t : Table) : Nat :=
  (t.rows.map (fun r => r.countP isNull)).sum

/-- First-occurrence deduplication (accumulator form, so that it reduces
by computation): keeps each element's first occurrence in order. -/
def firstDedupAux [DecidableEq α] (seen : List α) : List α → List α
  | [] => []
  | a :: l => if seen.contains a then firstDedupAux seen l else a :: firstDedupAux (a :: seen) l

/-- First-occurrence deduplication. -/
def firstDedup [DecidableEq α] (l : List α) : List α :=
  firstDedupAux [] l

/-- `df.drop_duplicates()`: remove duplicate rows, keeping the first
occurrence of each. -/
def dropDupTable (t : Table) : Table :=
  { t with rows := firstDedup t.rows }

/-- Python `str.strip()` over the character list: drop leading and
trailing whitespace. -/
def stripChars (l : List Char) : List Char :=
  ((l.dropWhile Char.isWhitespace).reverse.dropWhile Char.isWhitespace).reverse

/-- Python `str.strip()` on a string cell, identity elsewhere.  The source
applies this to every object-dtype column; a string cell always lives in
an object-dtype column, so the cell-level effect is exactly this. -/
def trimVal : Value → Value
  | .str s => .str ⟨stripChars s.toList⟩
  | v => v

/-- `DataCleaner._trim_whitespace` at table level. -/
def trimTable (t : Table) : Table :=
  { t with rows := t.rows.map (fun r => r.map trimVal) }

/-- Python `str.title()` (ASCII model): the first letter of every
alphabetic run is upper-cased, the rest lower-cased. -/
def titleChars : Bool → List Char → List Char
  | _, [] => []
  | prevAlpha, c :: cs =>
    if c.isAlpha then
      (if prevAlpha then c.toLower else c.toUpper) :: titleChars true cs
    else
      c :: titleChars false cs

/-- Case conversion of a string cell per the requested mode, identity on
non-string cells (mirrors `x.upper() if isinstance(x, str) else x`). -/
def caseVal (case : String) (v : Value) : Value :=
  match v with
  | .str s =>
    if case == "upper" then .str ⟨s.toList.map Char.toUpper⟩
    else if case == "lower" then .str ⟨s.toList.map Char.toLower⟩
    else if case == "title" then .str ⟨titleChars false s.toList⟩
    else .str s
  | v => v

/-- `DataCleaner._standardize_text_case` at table level. -/
def caseTable (case : String) (t : Table) : Table :=
  { t with rows := t.rows.map (fun r => r.map (caseVal case)) }

/-- Shape test used by the date model: `YYYY-MM-DD`. -/
def isIsoDate (s : String) : Bool :=
  match s.toList with
  | [a, b, c, d, h1, e, f, h2, g, k] =>
    a.isDigit && b.isDigit && c.isDigit && d.isDigit && h1 == '-' &&
    e.isDigit && f.isDigit && h2 == '-' && g.isDigit && k.isDigit
  | _ => false

/-- pandas `to_datetime(..., errors="coerce")`, modelled abstractly: a
parseable cell is kept (a date instant is represented by its text; an
integer is an epoch stamp), an unparseable cell becomes `null` rather
than raising.  No claim depends on the calendar details; the contract
that matters is coerce-to-null on failure. -/
def toDatetime (v : Value) : Value :=
  match v with
  | .str s => if isIsoDate s then .str s else .null
  | .int z => .int z
  | .null => .null
  | .bool _ => .null

/-- `DataCleaner._parse_dates` at table level: each listed column that
exists is coerced cell-wise (`errors="coerce"` never raises, so the
per-column `try`/`except` of the source never fires). -/
def parseDatesTable (date_columns : List String) (t : Table) : Table :=
  (date_columns.filter (fun c => t.header.contains c)).foldl
    (fun acc c => setCol acc c ((getCol acc c).map toDatetime)) t

/-- `CleaningOptions` of `data_cleaning_service.py` (defaults as in the
source; `fill_value` is `None` by default). -/
structure CleaningOptions where
  remove_duplicates : Bool := false
  handle_missing : String := "keep"
  fill_value : Option Value := none
  trim_whitespace : Bool := true
  text_case : Option String := none
  date_columns : List String := []
  date_format : Option String := none
deriving DecidableEq, Repr

/-- One entry of the cleaner's operation log. -/
structure LogEntry where
  operation : String
  details : List (String × Value) := []
deriving DecidableEq, Repr

/-- The state of a `DataCleaner` object: the caller's frame, the working
copy, and the log. -/
structure CleanerState where
  original_df : Table
  cleaned_df : Table
  applied_operations : List LogEntry
deriving DecidableEq, Repr

/-- `DataCleaner._log_operation`. -/
def logOp (st : CleanerState) (operation : String) (details : List (String × Value)) : CleanerState :=
  { st with applied_operations := st.applied_operations ++ [⟨operation, details⟩] }

/-- `DataCleaner._remove_duplicates`. -/
def removeDuplicates (st : CleanerState) : CleanerState :=
  let initialCount := st.cleaned_df.rows.length
  let newDf := dropDupTable st.cleaned_df
  let removed := initialCount - newDf.rows.length
  let st' := { st with cleaned_df := newDf }
  if removed > 0 then logOp st' "remove_duplicates" [("rows_removed", .int removed)] else st'

/-- `DataCleaner._handle_missing_values`: `drop` removes rows with a
missing cell (logging the count when positive); `fill` replaces missing
cells when a fill value is present (logging the count when positive);
anything else, or `fill` without a fill value, does nothing. -/
def handleMissingValues (st : CleanerState) (method : String) (fill_value : Option Value) : CleanerState :=
  if method == "drop" then
    let initialCount := st.cleaned_df.rows.length
    let newDf := dropNaTable st.cleaned_df
    let removed := initialCount - newDf.rows.length
    let st' := { st with cleaned_df := newDf }
    if removed > 0 then logOp st' "drop_missing_values" [("rows_removed", .int removed)] else st'
  else if method == "fill" then
    match fill_value with
    | some v =>
      let fillCount := countNulls st.cleaned_df
      let st' := { st with cleaned_df := fillNaTable st.cleaned_df v }
      if fillCount > 0 then
        logOp st' "fill_missing_values" [("values_filled", .int fillCount), ("fill_value", v)]
      else st'
    | none => st
  else st

/-- Object-dtype columns of the working frame, modelled as the columns
containing at least one string cell. -/
def strCols (t : Table) : List String :=
  t.header.filter (fun c => (getCol t c).any (fun v => match v with | .str _ => true | _ => false))

/-- `DataCleaner._trim_whitespace` (logs once when a string column exists,
whether or not anything changed). -/
def trimWhitespaceOp (st : CleanerState) : CleanerState :=
  let hasStr := (strCols st.cleaned_df).length > 0
  let st' := { st with cleaned_df := trimTable st.cleaned_df }
  if hasStr then logOp st' "trim_whitespace" [] else st'

/-- `DataCleaner._standardize_text_case`. -/
def standardizeTextCase (st : CleanerState) (case : String) : CleanerState :=
  let hasStr := (strCols st.cleaned_df).length > 0
  let st' := { st with cleaned_df := caseTable case st.cleaned_df }
  if hasStr then logOp st' "standardize_text_case" [("case", .str case)] else st'

/-- `DataCleaner._parse_dates` (the per-column coercion never raises, so
only the final `parse_dates` entry is ever logged; it is logged when the
filtered column list is non-empty). -/
def parseDatesOp (st : CleanerState) (date_columns : List String) : CleanerState :=
  let cols := date_columns.filter (fun c => st.cleaned_df.header.contains c)
  let st' := { st with cleaned_df := parseDatesTable date_columns st.cleaned_df }
  if cols ≠ [] then
    logOp st' "parse_dates" [("columns", .str (String.intercalate ", " cols))]
  else st'

/-- Step 1 of `DataCleaner.clean`. -/
def stepRemoveDup (o : CleaningOptions) (st : CleanerState) : CleanerState :=
  if o.remove_duplicates then removeDuplicates st else st

/-- Step 2 of `DataCleaner.clean`. -/
def stepMissing (o : CleaningOptions) (st : CleanerState) : CleanerState :=
  if o.handle_missing != "keep" then handleMissingValues st o.handle_missing o.fill_value else st

/-- Step 3 of `DataCleaner.clean`. -/
def stepTrim (o : CleaningOptions) (st : CleanerState) : CleanerState :=
  if o.trim_whitespace then trimWhitespaceOp st else st

/-- Step 4 of `DataCleaner.clean` (`if options.text_case:` — Python
truthiness: `None` and the empty string both skip). -/
def stepCase (o : CleaningOptions) (st : CleanerState) : CleanerState :=
  match o.text_case with
  | some c => if c != "" then standardizeTextCase st c else st
  | none => st

/-- Step 5 of `DataCleaner.clean` (`if options.date_columns:`). -/
def stepDates (o : CleaningOptions) (st : CleanerState) : CleanerState :=
  if o.date_columns != [] then parseDatesOp st o.date_columns else st

/-- `DataCleaner.clean`: the fixed sequence of conditional operations. -/
def clean (st : CleanerState) (o : CleaningOptions) : CleanerState :=
  stepDates o (stepCase o (stepTrim o (stepMissing o (stepRemoveDup o st))))

/-- `DataCleaner(df)` followed by `.clean(options)`, returning the cleaned
frame and the operation log (`get_cleaned_data` / `get_applied_operations`).
The constructor copies the caller frame (`df.copy()`). -/
def cleanTable (t : Table) (o : CleaningOptions) : Table × List LogEntry :=
  let st := clean { original_df := t, cleaned_df := t, applied_operations := [] } o
  (st.cleaned_df, st.applied_operations)

/-! The calculation engine (`calculations_service.py`). -/

/-- `CalculationType`. -/
inductive CalculationType where
  | sum
  | count
  | countif
  | sumif
  | ifOp
  | custom
deriving DecidableEq, Repr

/-- A condition value: a scalar or a collection (for the `in` operator). -/
inductive PyVal where
  | scalar (v : Value)
  | list (vs : List Value)
deriving DecidableEq, Repr

/-- The condition dictionary `{"operator": ..., "value": ...}`; either key
may be absent (a malformed condition). -/
structure Cond where
  operator : Option String := none
  value : Option PyVal := none
deriving DecidableEq, Repr

/-- `CalculationRule`.  The `custom` escape hatch executes an arbitrary
caller expression over the frame; it is modelled by an opaque column
producer that may fail. -/
structure Rule where
  name : String
  operation : CalculationType
  columns : List String
  condition : Option Cond := none
  true_value : Value := .null
  false_value : Value := .null
  custom_function : Option (Table → Except String (List Value)) := none

/-- One entry of `applied_calculations`. -/
structure CalcLogEntry where
  name : String
  operation : CalculationType
  details : String
  columns : List String
deriving DecidableEq, Repr

/-- The state of a `DataFrameCalculator` object. -/
structure CalcState where
  df : Table
  original_columns : List String
  applied_calculations : List CalcLogEntry
deriving DecidableEq, Repr

/-- `DataFrameCalculator(df)`: the constructor copies the frame and
records the pre-existing column names. -/
def initCalc (t : Table) : CalcState :=
  { df := t, original_columns := t.header, applied_calculations := [] }

/-- `DataFrameCalculator._log_operation`. -/
def calcLog (st : CalcState) (r : Rule) (details : String) : CalcState :=
  { st with applied_calculations :=
      st.applied_calculations ++ [⟨r.name, r.operation, details, r.columns⟩] }

/-- Element-wise fallible map (the `Except` analogue of `List.mapM`,
written recursively so proofs and computation stay elementary). -/
def mapE (f : α → Except String β) : List α → Except String (List β)
  | [] => .ok []
  | a :: l => do
    let b ← f a
    let bs ← mapE f l
    .ok (b :: bs)

/-- `DataFrameCalculator._validate_columns_exist`: raises naming every
missing column. -/
def validateColumnsExist (t : Table) (columns : List String) : Except String Unit :=
  let missing := columns.filter (fun c => !(t.header.contains c))
  if missing ≠ [] then
    .error ("Columns not found: " ++ String.intercalate ", " missing)
  else
    .ok ()

/-- Scalar equality as pandas broadcasts it: a missing cell compares
unequal to everything (`NaN` semantics), values of different kinds
compare unequal, values of the same kind compare structurally
(Python `bool` counts as its integer value). -/
def valueEqB : Value → Value → Bool
  | .null, _ => false
  | _, .null => false
  | .int a, .int b => a == b
  | .str a, .str b => a == b
  | .bool a, .bool b => a == b
  | .bool a, .int b => (if a then (1 : Int) else 0) == b
  | .int a, .bool b => a == (if b then (1 : Int) else 0)
  | _, _ => false

/-- Scalar strict `<` as pandas broadcasts it: missing compares false
(`NaN` semantics), numbers compare numerically (`bool` as `int`), texts
lexicographically, and a number/text mix raises the comparison
`TypeError`. -/
def valueLtE : Value → Value → Except String Bool
  | .null, _ => .ok false
  | _, .null => .ok false
  | .str a, .str b => .ok (decide (a.toList < b.toList))
  | .str _, _ => .error "comparison not supported between instances of str and int"
  | _, .str _ => .error "comparison not supported between instances of int and str"
  | a, b => .ok (decide (intOrZero a < intOrZero b))

/-- Literal substring test on character lists. -/
def startsWithL : List Char → List Char → Bool
  | [], _ => true
  | _ :: _, [] => false
  | a :: p, b :: l => a == b && startsWithL p l

/-- Literal substring occurrence test. -/
def substrOccurs (needle : List Char) : List Char → Bool
  | [] => needle.isEmpty
  | b :: l => startsWithL needle (b :: l) || substrOccurs needle l

/-- `hay` contains `needle` as a literal substring (`Series.str.contains`
for a metacharacter-free pattern; regular-expression patterns are outside
the model). -/
def strContainsB (hay needle : String) : Bool :=
  substrOccurs needle.toList hay.toList

/-- `DataFrameCalculator._parse_condition`: turns a condition dictionary
into the boolean column it denotes over `df[column]`, or raises.  The
`contains` branch is `df[column].astype(str).str.contains(str(value),
na=False)`: both sides are coerced to text BEFORE the test, so a missing
cell is first turned into the text `"nan"` (see `pyStr`) and the `na=False`
guard never sees a missing entry. -/
def parseCondition (t : Table) (column : String) (cond : Cond) : Except String (List Bool) := do
  match cond.operator, cond.value with
  | some op, some value =>
    let cells := getCol t column
    if op == "==" then
      match value with
      | .scalar v => .ok (cells.map (fun c => valueEqB c v))
      | .list _ => .error "Lengths must match to compare"
    else if op == "!=" then
      match value with
      | .scalar v => .ok (cells.map (fun c => !(valueEqB c v)))
      | .list _ => .error "Lengths must match to compare"
    else if op == ">" then
      match value with
      | .scalar v => mapE (fun c => valueLtE v c) cells
      | .list _ => .error "Lengths must match to compare"
    else if op == ">=" then
      match value with
      | .scalar v => mapE (fun c => do
          let lt ← valueLtE c v
          .ok (!lt && !(isNull c) && !(isNull v) || valueEqB c v)) cells
      | .list _ => .error "Lengths must match to compare"
    else if op == "<" then
      match value with
      | .scalar v => mapE (fun c => valueLtE c v) cells
      | .list _ => .error "Lengths must match to compare"
    else if op == "<=" then
      match value with
      | .scalar v => mapE (fun c => do
          let lt ← valueLtE v c
          .ok (!lt && !(isNull c) && !(isNull v) || valueEqB c v)) cells
      | .list _ => .error "Lengths must match to compare"
    else if op == "in" then
      match value with
      | .list vs => .ok (cells.map (fun c => vs.any (fun v => valueEqB c v)))
      | .scalar _ => .error "only list-like objects are allowed to be passed to isin"
    else if op == "contains" then
      match value with
      | .scalar v => .ok (cells.map (fun c => strContainsB (pyStr c) (pyStr v)))
      | .list vs => .ok (cells.map (fun c => strContainsB (pyStr c) (pyStr (.str (String.intercalate ", " (vs.map pyStr))))))
    else
      .error ("Unsupported operator: " ++ op)
  | _, _ =>
    .error ("Condition must include " ++ sq ++ "operator" ++ sq ++ " and " ++ sq ++ "value" ++ sq)

/-- Excluded-middle-free equality test for `Except` results, so that
concrete runs of the engine can be settled by `decide`. -/
instance {ε α : Type} [DecidableEq ε] [DecidableEq α] : DecidableEq (Except ε α) := fun x y =>
  match x, y with
  | .ok a, .ok b =>
    if h : a = b then .isTrue (by rw [h]) else .isFalse (by intro hc; cases hc; exact h rfl)
  | .error a, .error b =>
    if h : a = b then .isTrue (by rw [h]) else .isFalse (by intro hc; cases hc; exact h rfl)
  | .ok _, .error _ => .isFalse (by intro hc; cases hc)
  | .error _, .ok _ => .isFalse (by intro hc; cases hc)

/-- `DataFrameCalculator._format_condition`. -/
def formatCondition (cond : Cond) : String :=
  (cond.operator.getD "?") ++ " " ++
    (match cond.value with
     | some (.scalar v) => pyStr v
     | some (.list vs) => String.intercalate ", " (vs.map pyStr)
     | none => "?")

/-- Null-skipping addition step of a row-wise sum (`DataFrame.sum(axis=1)`
starts from 0 and adds the non-missing cells; adding a text cell to the
numeric accumulator raises the `TypeError` pandas surfaces). -/
def addValue (acc : Value) (v : Value) : Except String Value :=
  match acc, v with
  | .int a, .int b => .ok (.int (a + b))
  | .int a, .bool b => .ok (.int (a + (if b then 1 else 0)))
  | .str a, .str b => .ok (.str (a ++ b))
  | .int _, .str _ => .error "unsupported operand type for +: int and str"
  | .str _, _ => .error "unsupported operand type for +: str and int"
  | _, _ => .error "unsupported operand type for +"

/-- Row-wise null-skipping sum of a list of cells. -/
def rowSumE (cells : List Value) : Except String Value :=
  (cells.filter (fun v => !(isNull v))).foldlM addValue (.int 0)

/-- `DataFrameCalculator._apply_sum`. -/
def applySum (st : CalcState) (r : Rule) : Except String CalcState := do
  validateColumnsExist st.df r.columns
  let sums ← mapE (fun row => rowSumE (r.columns.map (fun c => cellAt st.df row c))) st.df.rows
  .ok (calcLog { st with df := setCol st.df r.name sums } r
        ("Sum of columns: " ++ String.intercalate ", " r.columns))

/-- `DataFrameCalculator._apply_count`. -/
def applyCount (st : CalcState) (r : Rule) : Except String CalcState := do
  validateColumnsExist st.df r.columns
  let counts := st.df.rows.map (fun row =>
    Value.int ((r.columns.map (fun c => cellAt st.df row c)).countP (fun v => !(isNull v))))
  .ok (calcLog { st with df := setCol st.df r.name counts } r
        ("Count of non-null values in columns: " ++ String.intercalate ", " r.columns))

/-- The message of the `numpy.AxisError` raised by `arr.sum(axis=1)` on a
one-dimensional array. -/
def axisErrMsg : String := "axis 1 is out of bounds for array of dimension 1"

/-- `DataFrameCalculator._apply_countif`.  The source computes
`np.where(condition, 1, 0).sum(axis=1)`: `np.where` over a boolean column
yields a ONE-dimensional indicator array, and calling `.sum(axis=1)` on it
unconditionally raises `numpy.AxisError` — so once the condition parses,
this operation always raises and never assigns the column. -/
def applyCountif (st : CalcState) (r : Rule) : Except String CalcState := do
  match r.condition with
  | none => .error "Condition is required for COUNTIF operation"
  | some cond =>
    match r.columns with
    | [] => .error "list index out of range"
    | column :: _ => do
      validateColumnsExist st.df [column]
      let _indicator ← parseCondition st.df column cond
      .error axisErrMsg

/-- `DataFrameCalculator._apply_sumif`. -/
def applySumif (st : CalcState) (r : Rule) : Except String CalcState := do
  if r.columns.length ≠ 2 then
    .error "SUMIF requires exactly two columns: [condition_column, sum_column]"
  else
    match r.condition with
    | none => .error "Condition is required for SUMIF operation"
    | some cond => do
      let condCol := r.columns.getD 0 ""
      let sumCol := r.columns.getD 1 ""
      validateColumnsExist st.df [condCol, sumCol]
      let condition ← parseCondition st.df condCol cond
      let vals := (condition.zip (getCol st.df sumCol)).map
        (fun p => if p.1 then p.2 else .int 0)
      .ok (calcLog { st with df := setCol st.df r.name vals } r
            ("Sum of " ++ sq ++ sumCol ++ sq ++ " where " ++ sq ++ condCol ++ sq ++ " " ++
              formatCondition cond))

/-- `DataFrameCalculator._apply_if`. -/
def applyIf (st : CalcState) (r : Rule) : Except String CalcState := do
  match r.condition with
  | none => .error "Condition is required for IF operation"
  | some cond =>
    match r.columns with
    | [] => .error "list index out of range"
    | column :: _ => do
      validateColumnsExist st.df [column]
      let condition ← parseCondition st.df column cond
      let vals := condition.map (fun b => if b then r.true_value else r.false_value)
      .ok (calcLog { st with df := setCol st.df r.name vals } r
            ("IF " ++ sq ++ column ++ sq ++ " " ++ formatCondition cond ++
              " THEN " ++ pyStr r.true_value ++ " ELSE " ++ pyStr r.false_value))

/-- `DataFrameCalculator._apply_custom`: runs the caller expression over
the frame, wrapping any failure. -/
def applyCustom (st : CalcState) (r : Rule) : Except String CalcState := do
  match r.custom_function with
  | none => .error "Custom function is required for CUSTOM operation"
  | some f =>
    match f st.df with
    | .ok vals =>
      .ok (calcLog { st with df := setCol st.df r.name vals } r "Applied custom function")
    | .error e => .error ("Error in custom function: " ++ e)

/-- `DataFrameCalculator._apply_rule`: dispatch on the operation kind (the
enum is exhaustive, so the `else raise` of the source is unreachable). -/
def applyRule (st : CalcState) (r : Rule) : Except String CalcState :=
  match r.operation with
  | .sum => applySum st r
  | .count => applyCount st r
  | .countif => applyCountif st r
  | .sumif => applySumif st r
  | .ifOp => applyIf st r
  | .custom => applyCustom st r

/-- The `for rule in rules: self._apply_rule(rule)` loop: the first raise
aborts the remainder. -/
def applyRulesLoop (st : CalcState) (rules : List Rule) : Except String CalcState :=
  rules.foldlM applyRule st

/-- `CalculationResult`. -/
structure CalculationResult where
  success : Bool
  message : String
  columns_added : List String := []
  error : Option String := none
  result_df : Option Table := none
deriving DecidableEq, Repr

/-- `DataFrameCalculator(df).apply_calculations(rules)`: on success
returns the updated frame and the newly added column names; on the first
raised error returns a failure carrying only the message — the partially
updated working frame is NOT returned.  (`set(df.columns) - original`
has no specified order in Python; it is modelled in header order.) -/
def applyCalculations (t : Table) (rules : List Rule) : CalculationResult :=
  match applyRulesLoop (initCalc t) rules with
  | .ok st =>
    { success := true
      message := "Successfully applied " ++ toString rules.length ++ " calculation(s)"
      columns_added := st.df.header.filter (fun c => !(st.original_columns.contains c))
      result_df := some st.df }
  | .error e =>
    { success := false
      message := "Error applying calculations: " ++ e
      error := some e }

/-! The pivot service (`pivot_service.py`).  `create_pivot` validates the
referenced columns, calls `pd.pivot_table` (whose default `sort=True`
emits row groups in ascending key order), serialises through
`_pivot_to_dict`, and wraps any raised error.  The two pandas steps are
fused into `innerPivot`. -/

/-- The aggregation functions modelled exactly.  The service also accepts
`mean`, `std` and `var`, whose results are floating point and therefore
outside the integer-exact value model; the per-column dictionary form of
`aggfunc` is likewise not modelled. -/
inductive AggFunc where
  | sum
  | count
  | min
  | max
  | first
  | last
deriving DecidableEq, Repr

/-- `PivotConfig` (defaults as in the source). -/
structure PivotConfig where
  index : List String
  columns : Option (List String) := none
  values : Option (List String) := none
  aggfunc : AggFunc := .sum
  fill_value : Option Value := none
  margins : Bool := false
  margins_name : String := "Total"
deriving DecidableEq, Repr

/-- Sort key of a cell for the pandas group-key ordering: missing first,
then numbers (Python `bool` at its integer value), then texts.  The third
component breaks ties between a `bool` and the equal `int` so that the
relation is antisymmetric. -/
def keyTriple : Value → Nat × Int × List Char
  | .null => (0, 0, [])
  | .bool b => (1, if b then 1 else 0, ['b'])
  | .int z => (1, z, ['i'])
  | .str s => (2, 0, s.toList)

/-- Lexicographic comparison of sort-key triples. -/
def tleB (p q : Nat × Int × List Char) : Bool :=
  p.1 < q.1 || (p.1 == q.1 && (p.2.1 < q.2.1 || (p.2.1 == q.2.1 && decide (p.2.2 ≤ q.2.2))))

/-- Total order on cells induced by `keyTriple`, lexicographically. -/
def valueLeB (a b : Value) : Bool :=
  tleB (keyTriple a) (keyTriple b)

/-- Lexicographic order on key tuples (the ascending order in which
`pd.pivot_table` emits its row groups). -/
def keyLe : List Value → List Value → Bool
  | [], _ => true
  | _ :: _, [] => false
  | x :: xs, y :: ys => if keyTriple x = keyTriple y then keyLe xs ys else valueLeB x y

/-- `keyLe` as a relation. -/
def keyLeR (a b : List Value) : Prop := keyLe a b = true

instance : DecidableRel keyLeR := fun a b => by unfold keyLeR; infer_instance

/-- The key tuple of a row under the given grouping columns. -/
def rowKey (t : Table) (cols : List String) (r : List Value) : List Value :=
  cols.map (fun c => cellAt t r c)

/-- A key tuple with no missing component (`groupby` drops groups whose
key contains a missing value). -/
def keyComplete (k : List Value) : Bool :=
  k.all (fun v => !(isNull v))

/-- The distinct complete key tuples of the table under the grouping
columns, in first-occurrence order — the discovery pass of `groupby`
(groups whose key contains a missing value are dropped). -/
def discoveredKeys (t : Table) (cols : List String) : List (List Value) :=
  firstDedup ((t.rows.map (rowKey t cols)).filter keyComplete)

/-- The discovered key tuples in ascending `keyLe` order — the order
`pd.pivot_table` (default `sort=True`) emits its groups in. -/
def sortedKeys (t : Table) (cols : List String) : List (List Value) :=
  List.insertionSort keyLeR (discoveredKeys t cols)

/-- Can these two cells be ordered by Python?  A number and a text
cannot (`TypeError`); everything else can (`bool` is an `int`;
missing keys never reach the sort — they are dropped beforehand). -/
def comparableValues : Value → Value → Bool
  | .str _, .str _ => true
  | .str _, _ => false
  | _, .str _ => false
  | _, _ => true

/-- Are all the key tuples of the list pairwise orderable?  `pandas`
raises the comparison `TypeError` while sorting group keys when distinct
keys mix numbers and texts in a position; that failure is modelled as a
whole-list comparability check. -/
def comparableKeys (ks : List (List Value)) : Bool :=
  ks.all (fun k => ks.all (fun k2 => (k.zip k2).all (fun p => comparableValues p.1 p.2)))

/-- The sorted group keys as `pd.pivot_table` computes them: the sort
raises when distinct keys are not orderable, otherwise yields the keys
in ascending order. -/
def sortedKeysE (t : Table) (cols : List String) : Except String (List (List Value)) :=
  if comparableKeys (discoveredKeys t cols) then .ok (sortedKeys t cols)
  else .error "comparison not supported between instances of str and int"

/-- Aggregation step for `min`/`max` (comparing a number with a text
raises the comparison `TypeError`, as pandas surfaces it). -/
def minMaxStep (isMin : Bool) (a b : Value) : Except String Value :=
  match a, b with
  | .str x, .str y =>
    .ok (if (decide (x.toList ≤ y.toList)) == isMin then .str x else .str y)
  | .str _, _ => .error "comparison not supported between instances of str and int"
  | _, .str _ => .error "comparison not supported between instances of int and str"
  | x, y =>
    .ok (if (decide (intOrZero x ≤ intOrZero y)) == isMin then x else y)

/-- One aggregation over the contributing cells of a group: missing cells
are skipped first (`sum` of an empty group is 0, `min`/`max`/`first`/`last`
of an empty group are missing), then the function is applied; a type
mismatch raises. -/
def aggregate (f : AggFunc) (vs : List Value) : Except String Value :=
  let nn := vs.filter (fun v => !(isNull v))
  match f with
  | .sum => nn.foldlM addValue (.int 0)
  | .count => .ok (.int nn.length)
  | .min =>
    match nn with
    | [] => .ok .null
    | x :: xs => xs.foldlM (minMaxStep true) x
  | .max =>
    match nn with
    | [] => .ok .null
    | x :: xs => xs.foldlM (minMaxStep false) x
  | .first => .ok (nn.headD .null)
  | .last => .ok (nn.getLastD .null)

/-- The serialised pivot payload built by `_pivot_to_dict`: flattened
column names, row-major records, and the index/column level names. -/
structure PivotData where
  columns : List String
  data : List (List (String × Value))
  index_columns : List (Option String)
  column_levels : List (Option String)
deriving DecidableEq, Repr

/-- `PivotResult` (the `data={}` of the failure branches is `none`). -/
structure PivotResult where
  success : Bool
  data : Option PivotData
  config : PivotConfig
  error : Option String := none
  message : Option String := none
deriving DecidableEq, Repr

/-- The enumerated validation failures of `create_pivot`, in the order the
source collects them: index columns, then cross-tab columns (skipped when
the field is absent or empty, per Python truthiness), then value
columns. -/
def missingEntries (t : Table) (cfg : PivotConfig) : List String :=
  (cfg.index.filter (fun c => !(t.header.contains c))).map
      (fun c => "Index column not found: " ++ c)
    ++ ((cfg.columns.getD []).filter (fun c => !(t.header.contains c))).map
      (fun c => "Column not found: " ++ c)
    ++ ((cfg.values.getD []).filter (fun c => !(t.header.contains c))).map
      (fun c => "Value column not found: " ++ c)

/-- The aggregated value columns: the ones listed, or else every numeric
column not used as a grouping column. -/
def valueColsOf (t : Table) (cfg : PivotConfig) : List String :=
  match cfg.values with
  | some vs => vs
  | none =>
    t.header.filter (fun c =>
      !(cfg.index.contains c) && !((cfg.columns.getD []).contains c) &&
        (getCol t c).all isNumOrNull)

/-- The key tuple of the grand-total row: `margins_name` in the first
index slot, empty text in the remaining slots. -/
def marginKey (cfg : PivotConfig) : List Value :=
  .str cfg.margins_name :: List.replicate (cfg.index.length - 1) (.str "")

/-- Flattened name of a cross-tab column: the `(value, column key...)`
tuple dot-joined over `str(...)` of its parts. -/
def flatColName (v : String) (ck : List Value) : String :=
  v ++ "." ++ String.intercalate "." (ck.map pyStr)

/-- `fill_value` semantics of `pd.pivot_table`: it replaces EVERY missing
cell of the pivoted result — an absent cross-tab combination as well as a
missing aggregate (a `min`/`max`/`first`/`last` over an all-missing
group) — leaving the cell missing when unset. -/
def applyFill (cfg : PivotConfig) (v : Value) : Value :=
  if isNull v then cfg.fill_value.getD .null else v

/-- One emitted row-group record of a pivot without cross-tab columns:
the index cells of the key, then each value column aggregated over the
key's contributing rows, with `fill_value` applied to missing cells. -/
def flatRecFor (t : Table) (cfg : PivotConfig) (k : List Value) :
    Except String (List (String × Value)) := do
  let grp := t.rows.filter (fun r => rowKey t cfg.index r == k)
  let vals ← mapE (fun c => do
    let a ← aggregate cfg.aggfunc (grp.map (fun r => cellAt t r c))
    .ok (c, applyFill cfg a)) (valueColsOf t cfg)
  .ok (cfg.index.zip k ++ vals)

/-- The grand-total records of a pivot without cross-tab columns: one row
keyed by `margins_name` aggregating the whole table when `margins` is
set, nothing otherwise. -/
def marginRecsFlat (t : Table) (cfg : PivotConfig) :
    Except String (List (List (String × Value))) :=
  if cfg.margins then do
    let vals ← mapE (fun c => do
      let a ← aggregate cfg.aggfunc (t.rows.map (fun r => cellAt t r c))
      .ok (c, applyFill cfg a)) (valueColsOf t cfg)
    .ok [cfg.index.zip (marginKey cfg) ++ vals]
  else .ok []

/-- One cross-tab cell: the aggregate of the sub-group, a combination
with no contributing rows being missing; `fill_value` is applied to the
missing cells of the result either way. -/
def crossCellOf (t : Table) (cfg : PivotConfig) (rows : List (List Value)) (c : String) :
    Except String Value :=
  if rows.isEmpty then .ok (applyFill cfg .null)
  else do
    let a ← aggregate cfg.aggfunc (rows.map (fun r => cellAt t r c))
    .ok (applyFill cfg a)

/-- One emitted row-group record of a cross-tab pivot: the index cells of
the key, then, per value column, one cell per column key (plus the
per-record margin cell when `margins` is set). -/
def crossRecFor (t : Table) (cfg : PivotConfig) (ckeys : List (List Value)) (k : List Value) :
    Except String (List (String × Value)) := do
  let grp := t.rows.filter (fun r => rowKey t cfg.index r == k)
  let vals ← mapE (fun v => do
    let cells ← mapE (fun ck => do
      let a ← crossCellOf t cfg (grp.filter (fun r => rowKey t (cfg.columns.getD []) r == ck)) v
      .ok (flatColName v ck, a)) ckeys
    let mcell ←
      if cfg.margins then do
        let a ← aggregate cfg.aggfunc (grp.map (fun r => cellAt t r v))
        .ok [(flatColName v [.str cfg.margins_name], applyFill cfg a)]
      else .ok []
    .ok (cells ++ mcell)) (valueColsOf t cfg)
  .ok (cfg.index.zip k ++ vals.flatten)

/-- The grand-total records of a cross-tab pivot: one row keyed by
`margins_name`, aggregating per column key and over the whole table, when
`margins` is set. -/
def marginRecsCross (t : Table) (cfg : PivotConfig) (ckeys : List (List Value)) :
    Except String (List (List (String × Value))) :=
  if cfg.margins then do
    let vals ← mapE (fun v => do
      let cells ← mapE (fun ck => do
        let a ← crossCellOf t cfg (t.rows.filter (fun r => rowKey t (cfg.columns.getD []) r == ck)) v
        .ok (flatColName v ck, a)) ckeys
      let a ← aggregate cfg.aggfunc (t.rows.map (fun r => cellAt t r v))
      .ok (cells ++ [(flatColName v [.str cfg.margins_name], applyFill cfg a)])) (valueColsOf t cfg)
    .ok [cfg.index.zip (marginKey cfg) ++ vals.flatten]
  else .ok []

/-- The serialised payload of a pivot without cross-tab columns. -/
def flatData (t : Table) (cfg : PivotConfig) (recs margrecs : List (List (String × Value))) :
    PivotData :=
  { columns := cfg.index ++ valueColsOf t cfg
    data := recs ++ margrecs
    index_columns := cfg.index.map some
    column_levels := [none] }

/-- The serialised payload of a cross-tab pivot, with dot-flattened
column names. -/
def crossData (t : Table) (cfg : PivotConfig) (ccols : List String)
    (ckeys : List (List Value)) (recs margrecs : List (List (String × Value))) : PivotData :=
  { columns := cfg.index ++ (valueColsOf t cfg).flatMap (fun v =>
      ckeys.map (flatColName v) ++
        (if cfg.margins then [flatColName v [.str cfg.margins_name]] else []))
    data := recs ++ margrecs
    index_columns := cfg.index.map some
    column_levels := none :: ccols.map some }

/-- `pd.pivot_table` followed by `_pivot_to_dict`: sort the discovered
row-group keys (raising on unorderable mixed-type keys), aggregate every
value column per group, append the grand-total row last when `margins` is
set, and emit row-major records keyed by the flattened column names. -/
def innerPivot (t : Table) (cfg : PivotConfig) : Except String PivotData := do
  let keys ← sortedKeysE t cfg.index
  let ccols := cfg.columns.getD []
  if ccols.isEmpty then
    let recs ← mapE (flatRecFor t cfg) keys
    let margrecs ← marginRecsFlat t cfg
    .ok (flatData t cfg recs margrecs)
  else
    let ckeys ← sortedKeysE t ccols
    let recs ← mapE (crossRecFor t cfg ckeys) keys
    let margrecs ← marginRecsCross t cfg ckeys
    .ok (crossData t cfg ccols ckeys recs margrecs)

/-- `PivotService.create_pivot`: a TOTAL function — every failure path,
validation or computation, returns a `PivotResult` instead of
propagating.  Validation runs first and reports every missing column;
only then is the pivot computed, any raised error being wrapped with the
fixed error label and the raised message. -/
def createPivot (t : Table) (cfg : PivotConfig) : PivotResult :=
  if missingEntries t cfg ≠ [] then
    { success := false
      data := none
      config := cfg
      error := some "Column validation failed"
      message := some (String.intercalate ", " (missingEntries t cfg)) }
  else
    match innerPivot t cfg with
    | .ok d =>
      { success := true
        data := some d
        config := cfg
        message := some "Pivot table generated successfully" }
    | .error e =>
      { success := false
        data := none
        config := cfg
        error := some "Error generating pivot table"
        message := some e }

/-- The heap of frame objects. -/
abbrev Heap := List Table

/-- Dereference (out-of-range reads yield the empty frame; the theorems
only read live references). -/
def readRef (h : Heap) (i : Nat) : Table :=
  h.getD i ⟨[], []⟩

/-- In-place mutation through a reference (`self.df[...] = ...`). -/
def writeRef (h : Heap) (i : Nat) (t : Table) : Heap :=
  h.set i t

/-- Allocation of a fresh frame (`df.copy()`, or any pandas call that
returns a new frame): appended at the end, its reference returned. -/
def allocRef (h : Heap) (t : Table) : Heap × Nat :=
  (h ++ [t], h.length)

/-- A cleaning step that REBINDS `self.cleaned_df` to a freshly returned
frame (`drop_duplicates`, `dropna`, `fillna` all return new objects):
the working pair is (heap, current `cleaned_df` reference). -/
def allocStepP (f : Table → Table) (s : Heap × Nat) : Heap × Nat :=
  allocRef s.1 (f (readRef s.1 s.2))

/-- A cleaning step that mutates the current frame in place
(column assignments in `_trim_whitespace` and friends). -/
def writeStepP (f : Table → Table) (s : Heap × Nat) : Heap × Nat :=
  (writeRef s.1 s.2 (f (readRef s.1 s.2)), s.2)

/-- A conditionally applied step (`if options...: self._...()`). -/
def condStep (b : Bool) (step : Heap × Nat → Heap × Nat) (s : Heap × Nat) : Heap × Nat :=
  if b then step s else s

/-- Table-level effect of the missing-value step (used by the heap
model; the pure cleaner additionally logs). -/
def handleMissingTable (method : String) (fill_value : Option Value) (t : Table) : Table :=
  if method == "drop" then dropNaTable t
  else if method == "fill" then
    match fill_value with
    | some v => fillNaTable t v
    | none => t
  else t

/-- `DataCleaner(df).clean(options)` over the heap: the constructor
aliases `original_df` to the caller's reference and binds `cleaned_df` to
a fresh copy; every subsequent step either rebinds `cleaned_df` to a
fresh frame or writes through `cleaned_df`.  Returns the final heap and
the reference `get_cleaned_data` hands back. -/
def cleanHeap (h : Heap) (caller : Nat) (o : CleaningOptions) : Heap × Nat :=
  condStep (o.date_columns != []) (writeStepP (parseDatesTable o.date_columns))
    (condStep (match o.text_case with | some c => c != "" | none => false)
      (writeStepP (caseTable (o.text_case.getD "")))
      (condStep o.trim_whitespace (writeStepP trimTable)
        (condStep (o.handle_missing != "keep")
          (allocStepP (handleMissingTable o.handle_missing o.fill_value))
          (condStep o.remove_duplicates (allocStepP dropDupTable)
            (allocRef h (readRef h caller))))))

/-- The rule loop of `apply_calculations` over the heap: each applied rule
writes the updated frame back through the calculator's own `df`
reference; the first raise stops the loop. -/
def applyRulesHeap (h : Heap) (dfRef : Nat) : List Rule → Heap × Except String Unit
  | [] => (h, .ok ())
  | r :: rs =>
    match applyRule { df := readRef h dfRef, original_columns := [], applied_calculations := [] } r with
    | .ok st => applyRulesHeap (writeRef h dfRef st.df) dfRef rs
    | .error _ => (h, .error "")

/-- `DataFrameCalculator(df).apply_calculations(rules)` over the heap:
the constructor copies the caller's frame into a fresh reference; on
success the result carries that reference (`result_df=self.df`), on
failure it carries none. -/
def calcHeap (h : Heap) (caller : Nat) (rules : List Rule) : Heap × Option Nat :=
  let s0 := allocRef h (readRef h caller)
  let res := applyRulesHeap s0.1 s0.2 rules
  match res.2 with
  | .ok _ => (res.1, some s0.2)
  | .error _ => (res.1, none)

/-! Helper lemmas. -/

lemma isNull_eq_false_iff (v : Value) : isNull v = false ↔ v ≠ Value.null := by
  cases v <;> simp [isNull]

lemma fillNaTable_of_no_nulls (t : Table) (v : Value) (h : countNulls t = 0) :
    fillNaTable t v = t := by
  have hrows : ∀ r ∈ t.rows, r.countP isNull = 0 := by
    intro r hr
    exact List.sum_eq_zero_iff.mp h _ (List.mem_map.mpr ⟨r, hr, rfl⟩)
  have hmap : t.rows.map (fun r => r.map (fun c => if isNull c then v else c)) = t.rows := by
    have := List.map_congr_left (l := t.rows)
      (f := fun r => r.map (fun c => if isNull c then v else c)) (g := id) ?_
    · simpa using this
    · intro r hr
      have hcells := List.countP_eq_zero.mp (hrows r hr)
      have : r.map (fun c => if isNull c then v else c) = r.map id := by
        refine List.map_congr_left ?_
        intro c hc
        have : isNull c = false := by
          cases hnc : isNull c
          · rfl
          · exact absurd hnc (hcells c hc)
        simp [this]
      simpa using this
  show { t with rows := _ } = t
  rw [hmap]

/-! Claim theorems. -/

/-- C1: the claim says a countif rule over column `[5, 15, 25]` with
condition `> 10` yields the indicator column `[0, 1, 1]`.  The condition
itself does evaluate to the per-row indicator (second conjunct), but the
source then calls `.sum(axis=1)` on the ONE-dimensional `np.where`
result, which unconditionally raises `numpy.AxisError`; so
`apply_calculations` returns a failure and never produces the column
(first conjunct). -/
theorem countif_always_raises_axis_error :
    applyCalculations ⟨["c"], [[.int 5], [.int 15], [.int 25]]⟩
        [{ name := "ind", operation := .countif, columns := ["c"],
           condition := some ⟨some ">", some (.scalar (.int 10))⟩ }] =
      { success := false,
        message := "Error applying calculations: " ++ axisErrMsg,
        columns_added := [], error := some axisErrMsg, result_df := none } ∧
    parseCondition ⟨["c"], [[.int 5], [.int 15], [.int 25]]⟩ "c"
        ⟨some ">", some (.scalar (.int 10))⟩ = .ok [false, true, true] :=
  ⟨by decide, by decide⟩

/-- C2: whenever the sequential rule application raises (on its first
failing rule), `apply_calculations` returns a failure whose message wraps
the raised text, with no result table at all — the partially updated
working frame is discarded even if earlier rules succeeded. -/
theorem applyCalculations_fails_atomically (t : Table) (rules : List Rule) (e : String)
    (h : applyRulesLoop (initCalc t) rules = .error e) :
    applyCalculations t rules =
      { success := false, message := "Error applying calculations: " ++ e,
        columns_added := [], error := some e, result_df := none } := by
  unfold applyCalculations
  rw [h]

/-- Witness for C2: a batch whose first rule succeeds and whose second
references a missing column fails with that column named and no result
table. -/
theorem applyCalculations_fails_atomically_witness :
    applyRulesLoop (initCalc ⟨["a"], [[.int 1]]⟩)
        [{ name := "s", operation := .sum, columns := ["a"] },
         { name := "u", operation := .sum, columns := ["zz"] }] =
      .error "Columns not found: zz" ∧
    applyCalculations ⟨["a"], [[.int 1]]⟩
        [{ name := "s", operation := .sum, columns := ["a"] },
         { name := "u", operation := .sum, columns := ["zz"] }] =
      { success := false, message := "Error applying calculations: Columns not found: zz",
        columns_added := [], error := some "Columns not found: zz", result_df := none } :=
  ⟨by decide, applyCalculations_fails_atomically _ _ _ (by decide)⟩

/-- C7: the claim says `contains` compares text coercions AND that a
missing cell never matches.  The coercion part is real, but it is applied
to the missing cell first: `astype(str)` renders a missing cell as the
text `"nan"`, so the cell MATCHES any condition value occurring in that
text (here `"a"`), the `na=False` guard notwithstanding.  The non-missing
cells show the substring behaviour the claim describes. -/
theorem contains_matches_missing_cell :
    parseCondition ⟨["c"], [[.null], [.str "banana"], [.str "zz"]]⟩ "c"
        ⟨some "contains", some (.scalar (.str "a"))⟩ = .ok [true, true, false] := by
  decide

/-- C9: with `handle_missing="fill"` and no fill value, the
missing-value step returns the state unchanged — same frame, same log, no
error; and when a fill value is present but the frame has no missing
cell, the step is likewise a silent no-op (no `fill_missing_values` log
entry is appended). -/
theorem fill_without_value_is_silent_noop (st : CleanerState) (v : Value) :
    handleMissingValues st "fill" none = st ∧
    (countNulls st.cleaned_df = 0 → handleMissingValues st "fill" (some v) = st) := by
  refine ⟨rfl, fun h => ?_⟩
  have h1 : (("fill" : String) == "drop") = false := rfl
  have h2 : (("fill" : String) == "fill") = true := rfl
  simp only [handleMissingValues, h1, h2, if_false, if_true, h,
    fillNaTable_of_no_nulls st.cleaned_df v h]
  simp

/-- Witness for C9: a concrete state with no missing cell is returned
unchanged by both no-op paths. -/
theorem fill_without_value_is_silent_noop_witness :
    handleMissingValues ⟨⟨["a"], [[.int 1]]⟩, ⟨["a"], [[.int 1]]⟩, []⟩ "fill" none =
      ⟨⟨["a"], [[.int 1]]⟩, ⟨["a"], [[.int 1]]⟩, []⟩ ∧
    countNulls (⟨⟨["a"], [[.int 1]]⟩, ⟨["a"], [[.int 1]]⟩, []⟩ : CleanerState).cleaned_df = 0 ∧
    handleMissingValues ⟨⟨["a"], [[.int 1]]⟩, ⟨["a"], [[.int 1]]⟩, []⟩ "fill" (some (.int 7)) =
      ⟨⟨["a"], [[.int 1]]⟩, ⟨["a"], [[.int 1]]⟩, []⟩ :=
  ⟨(fill_without_value_is_silent_noop _ (.int 7)).1, by decide,
    (fill_without_value_is_silent_noop _ (.int 7)).2 (by decide)⟩

/-- C10: `create_pivot` never propagates a raised error: whenever the
pivot computation raises (after validation passed), the result is a
structured failure with `success=false`, empty data, the fixed error
label, and the raised message in the message field.  (Totality itself is
by construction: `createPivot` is a function into `PivotResult`.) -/
theorem createPivot_wraps_computation_errors (t : Table) (cfg : PivotConfig) (e : String)
    (hv : missingEntries t cfg = []) (he : innerPivot t cfg = .error e) :
    createPivot t cfg =
      { success := false, data := none, config := cfg,
        error := some "Error generating pivot table", message := some e } := by
  unfold createPivot
  rw [hv]
  simp [he]

/-- Witness for C10: aggregating a value column that mixes an integer and
a text raises the addition `TypeError`, which is caught and returned as a
structured failure. -/
theorem createPivot_wraps_computation_errors_witness :
    missingEntries ⟨["g", "v"], [[.str "a", .int 1], [.str "a", .str "x"]]⟩
        { index := ["g"], values := some ["v"] } = [] ∧
    innerPivot ⟨["g", "v"], [[.str "a", .int 1], [.str "a", .str "x"]]⟩
        { index := ["g"], values := some ["v"] } =
      .error "unsupported operand type for +: int and str" ∧
    createPivot ⟨["g", "v"], [[.str "a", .int 1], [.str "a", .str "x"]]⟩
        { index := ["g"], values := some ["v"] } =
      { success := false, data := none,
        config := { index := ["g"], values := some ["v"] },
        error := some "Error generating pivot table",
        message := some "unsupported operand type for +: int and str" } :=
  ⟨by decide, by decide, createPivot_wraps_computation_errors _ _ _ (by decide) (by decide)⟩

/-- C3: when any referenced column is missing, `create_pivot` returns a
structured validation failure BEFORE any aggregation (its data payload is
empty), whose message joins the enumerated entries; and the enumeration
is complete — every missing index, cross-tab, and value column
contributes its entry, not just the first one found. -/
theorem createPivot_enumerates_missing_columns (t : Table) (cfg : PivotConfig)
    (h : missingEntries t cfg ≠ []) :
    createPivot t cfg =
      { success := false, data := none, config := cfg,
        error := some "Column validation failed",
        message := some (String.intercalate ", " (missingEntries t cfg)) } ∧
    (∀ c ∈ cfg.index, c ∉ t.header →
      ("Index column not found: " ++ c) ∈ missingEntries t cfg) ∧
    (∀ cs, cfg.columns = some cs → ∀ c ∈ cs, c ∉ t.header →
      ("Column not found: " ++ c) ∈ missingEntries t cfg) ∧
    (∀ vs, cfg.values = some vs → ∀ c ∈ vs, c ∉ t.header →
      ("Value column not found: " ++ c) ∈ missingEntries t cfg) := by
  have hmem : ∀ (c : String), c ∉ t.header → (!(t.header.contains c)) = true := by
    intro c hnm
    cases hcontains : t.header.contains c
    · rfl
    · exact absurd (List.mem_of_elem_eq_true hcontains) hnm
  refine ⟨?_, ?_, ?_, ?_⟩
  · unfold createPivot
    rw [if_pos h]
  · intro c hc hnm
    refine List.mem_append.mpr (Or.inl (List.mem_append.mpr (Or.inl ?_)))
    exact List.mem_map.mpr ⟨c, List.mem_filter.mpr ⟨hc, hmem c hnm⟩, rfl⟩
  · intro cs hcs c hc hnm
    refine List.mem_append.mpr (Or.inl (List.mem_append.mpr (Or.inr ?_)))
    refine List.mem_map.mpr ⟨c, List.mem_filter.mpr ⟨?_, hmem c hnm⟩, rfl⟩
    rw [hcs]
    exact hc
  · intro vs hvs c hc hnm
    refine List.mem_append.mpr (Or.inr ?_)
    refine List.mem_map.mpr ⟨c, List.mem_filter.mpr ⟨?_, hmem c hnm⟩, rfl⟩
    rw [hvs]
    exact hc

/-- Witness for C3: the spec example — `index=["missing1"],
values=["missing2"]` yields one error message naming both. -/
theorem createPivot_enumerates_missing_columns_witness :
    missingEntries ⟨["cat", "val"], []⟩
        { index := ["missing1"], values := some ["missing2"] } ≠ [] ∧
    createPivot ⟨["cat", "val"], []⟩
        { index := ["missing1"], values := some ["missing2"] } =
      { success := false, data := none,
        config := { index := ["missing1"], values := some ["missing2"] },
        error := some "Column validation failed",
        message := some "Index column not found: missing1, Value column not found: missing2" } ∧
    ("Index column not found: missing1") ∈
      missingEntries ⟨["cat", "val"], []⟩ { index := ["missing1"], values := some ["missing2"] } ∧
    ("Value column not found: missing2") ∈
      missingEntries ⟨["cat", "val"], []⟩ { index := ["missing1"], values := some ["missing2"] } :=
  ⟨by decide,
    by
      have := (createPivot_enumerates_missing_columns ⟨["cat", "val"], []⟩
        { index := ["missing1"], values := some ["missing2"] } (by decide)).1
      rw [this]
      decide,
    (createPivot_enumerates_missing_columns _ _ (by decide)).2.1 "missing1" (by decide) (by decide),
    (createPivot_enumerates_missing_columns _ _ (by decide)).2.2.2 ["missing2"] rfl "missing2"
      (by decide) (by decide)⟩

lemma mapE_eq_ok_map (f : α → Except String β) (g : α → β) :
    ∀ l : List α, (∀ a ∈ l, f a = .ok (g a)) → mapE f l = .ok (l.map g) := by
  intro l
  induction l with
  | nil => intro _; rfl
  | cons a l ih =>
    intro h
    have ha := h a (List.mem_cons_self a l)
    have hl := ih (fun b hb => h b (List.mem_cons_of_mem a hb))
    simp only [mapE, ha, hl]
    rfl

lemma validateColumnsExist_ok (t : Table) (cols : List String)
    (h : ∀ c ∈ cols, c ∈ t.header) : validateColumnsExist t cols = .ok () := by
  unfold validateColumnsExist
  have hnil : cols.filter (fun c => !(t.header.contains c)) = [] :=
    List.filter_eq_nil_iff.mpr (fun a ha => by simpa using h a ha)
  rw [hnil]
  simp

lemma foldlM_addValue_num :
    ∀ (l : List Value) (acc : Int),
      (∀ v ∈ l, isNumOrNull v = true ∧ isNull v = false) →
      l.foldlM addValue (Value.int acc) = .ok (.int (acc + (l.map intOrZero).sum)) := by
  intro l
  induction l with
  | nil =>
    intro acc _
    show Except.ok (Value.int acc) = _
    simp
  | cons v l ih =>
    intro acc h
    have hv := h v (List.mem_cons_self v l)
    have hl := fun b hb => h b (List.mem_cons_of_mem v hb)
    cases v with
    | null => exact absurd hv.2 (by simp [isNull])
    | str s => exact absurd hv.1 (by simp [isNumOrNull])
    | int z =>
      rw [List.foldlM_cons]
      show addValue (.int acc) (.int z) >>= _ = _
      rw [show addValue (.int acc) (.int z) = .ok (.int (acc + z)) from rfl]
      show (l.foldlM addValue (Value.int (acc + z))) = _
      rw [ih (acc + z) hl]
      simp [intOrZero]
      omega
    | bool b =>
      rw [List.foldlM_cons]
      show addValue (.int acc) (.bool b) >>= _ = _
      rw [show addValue (.int acc) (.bool b) = .ok (.int (acc + (if b then 1 else 0))) from rfl]
      show (l.foldlM addValue (Value.int (acc + (if b then 1 else 0)))) = _
      rw [ih _ hl]
      simp only [Except.ok.injEq, Value.int.injEq, List.map_cons, List.sum_cons, intOrZero]
      omega

lemma sum_intOrZero_filter (cells : List Value) :
    ((cells.filter (fun v => !(isNull v))).map intOrZero).sum = (cells.map intOrZero).sum := by
  induction cells with
  | nil => rfl
  | cons v l ih =>
    rw [List.filter_cons]
    cases hnv : isNull v
    · simp [hnv, ih]
    · have hv : v = .null := by cases v <;> simp_all [isNull]
      subst hv
      simp [hnv, ih, intOrZero]

lemma rowSumE_num (cells : List Value) (h : ∀ v ∈ cells, isNumOrNull v = true) :
    rowSumE cells = .ok (.int ((cells.map intOrZero).sum)) := by
  unfold rowSumE
  have h1 : ∀ v ∈ cells.filter (fun v => !(isNull v)), isNumOrNull v = true ∧ isNull v = false := by
    intro v hv
    refine ⟨h v (List.mem_of_mem_filter hv), ?_⟩
    have := (List.mem_filter.mp hv).2
    simpa using this
  rw [foldlM_addValue_num _ 0 h1, sum_intOrZero_filter]
  simp

lemma findIdx?_append_singleton (l : List α) (a : α) (p : α → Bool)
    (h : l.findIdx? p = none) (hp : p a = true) :
    (l ++ [a]).findIdx? p = some l.length := by
  induction l with
  | nil => simp [hp]
  | cons x l ih =>
    have hx : p x = false := (List.findIdx?_eq_none_iff.mp h) x (List.mem_cons_self x l)
    have hl : l.findIdx? p = none := by
      rw [List.findIdx?_eq_none_iff]
      intro y hy
      exact (List.findIdx?_eq_none_iff.mp h) y (List.mem_cons_of_mem x hy)
    show (x :: (l ++ [a])).findIdx? p = _
    rw [List.findIdx?_cons, if_neg (by simp [hx]), List.findIdx?_start_succ, ih hl]
    simp

lemma zipWith_set_getD (i : Nat) :
    ∀ (rows : List (List Value)) (vals : List Value),
      vals.length = rows.length → (∀ r ∈ rows, i < r.length) →
      (List.zipWith (fun r v => r.set i v) rows vals).map (fun r => r.getD i .null) = vals := by
  intro rows
  induction rows with
  | nil =>
    intro vals hlen _
    cases vals with
    | nil => rfl
    | cons v vs => simp at hlen
  | cons r rows ih =>
    intro vals hlen hbound
    cases vals with
    | nil => simp at hlen
    | cons v vs =>
      have hi : i < r.length := hbound r (List.mem_cons_self r rows)
      have : (r.set i v).getD i .null = v := by
        simp [List.getD, List.getElem?_set_self, hi]
      simp only [List.zipWith_cons_cons, List.map_cons, this]
      rw [ih vs (by simpa using hlen) (fun s hs => hbound s (List.mem_cons_of_mem r hs))]

lemma zipWith_append_getD (n : Nat) :
    ∀ (rows : List (List Value)) (vals : List Value),
      vals.length = rows.length → (∀ r ∈ rows, r.length = n) →
      (List.zipWith (fun r v => r ++ [v]) rows vals).map (fun r => r.getD n .null) = vals := by
  intro rows
  induction rows with
  | nil =>
    intro vals hlen _
    cases vals with
    | nil => rfl
    | cons v vs => simp at hlen
  | cons r rows ih =>
    intro vals hlen hbound
    cases vals with
    | nil => simp at hlen
    | cons v vs =>
      have hr : r.length = n := hbound r (List.mem_cons_self r rows)
      have : (r ++ [v]).getD n .null = v := by
        subst hr
        simp [List.getD, List.getElem?_append_right (Nat.le_refl r.length)]
      simp only [List.zipWith_cons_cons, List.map_cons, this]
      rw [ih vs (by simpa using hlen) (fun s hs => hbound s (List.mem_cons_of_mem r hs))]

lemma getCol_setCol (t : Table) (name : String) (vals : List Value)
    (hwf : t.WF) (hlen : vals.length = t.rows.length) :
    getCol (setCol t name vals) name = vals := by
  unfold setCol
  cases hidx : t.header.findIdx? (· == name) with
  | some i =>
    have hi : i < t.header.length :=
      (List.findIdx?_eq_some_iff_findIdx_eq.mp hidx).1
    unfold getCol cellAt
    simp only [hidx]
    exact zipWith_set_getD i t.rows vals hlen
      (fun r hr => by rw [hwf r hr]; exact hi)
  | none =>
    unfold getCol cellAt
    have hfind : (t.header ++ [name]).findIdx? (· == name) = some t.header.length :=
      findIdx?_append_singleton t.header name _ hidx (by simp)
    simp only [hfind]
    exact zipWith_append_getD t.header.length t.rows vals hlen hwf

/-- C5: a `sum` rule produces the new column of row-wise sums of the
listed source columns, with a missing cell contributing zero — provided
the rule's columns exist and hold numeric-or-missing cells (the table
being well-formed). -/
theorem sum_rule_is_rowwise_null_as_zero (t : Table) (r : Rule)
    (hop : r.operation = .sum)
    (hwf : t.WF)
    (hcols : ∀ c ∈ r.columns, c ∈ t.header)
    (hnum : ∀ row ∈ t.rows, ∀ c ∈ r.columns, isNumOrNull (cellAt t row c) = true) :
    ∃ df', (applyCalculations t [r]).success = true ∧
      (applyCalculations t [r]).result_df = some df' ∧
      getCol df' r.name =
        t.rows.map (fun row =>
          Value.int ((r.columns.map (fun c => intOrZero (cellAt t row c))).sum)) := by
  have hval : validateColumnsExist t r.columns = .ok () := validateColumnsExist_ok t r.columns hcols
  have hsums : mapE (fun row => rowSumE (r.columns.map (fun c => cellAt t row c))) t.rows =
      .ok (t.rows.map (fun row =>
        Value.int ((r.columns.map (fun c => intOrZero (cellAt t row c))).sum))) := by
    refine mapE_eq_ok_map _ _ _ ?_
    intro row hrow
    rw [rowSumE_num]
    · rw [List.map_map]
      rfl
    · intro v hv
      obtain ⟨c, hc, rfl⟩ := List.mem_map.mp hv
      exact hnum row hrow c hc
  have happ : applySum (initCalc t) r = .ok (calcLog
      { initCalc t with df := setCol t r.name (t.rows.map (fun row =>
          Value.int ((r.columns.map (fun c => cellAt t row c |> intOrZero)).sum))) } r
      ("Sum of columns: " ++ String.intercalate ", " r.columns)) := by
    unfold applySum
    rw [show (initCalc t).df = t from rfl] at *
    rw [hval]
    show mapE _ t.rows >>= _ = _
    rw [hsums]
    rfl
  have hdispatch : applyRule (initCalc t) r = applySum (initCalc t) r := by
    unfold applyRule
    rw [hop]
  have hloop : applyRulesLoop (initCalc t) [r] =
      .ok (calcLog
        { initCalc t with df := setCol t r.name (t.rows.map (fun row =>
            Value.int ((r.columns.map (fun c => intOrZero (cellAt t row c))).sum))) } r
        ("Sum of columns: " ++ String.intercalate ", " r.columns)) := by
    unfold applyRulesLoop
    rw [List.foldlM_cons, hdispatch, happ]
    rfl
  refine ⟨setCol t r.name (t.rows.map (fun row =>
      Value.int ((r.columns.map (fun c => intOrZero (cellAt t row c))).sum))), ?_, ?_, ?_⟩
  · simp [applyCalculations, hloop]
  · simp [applyCalculations, hloop, calcLog]
  · exact getCol_setCol t r.name _ hwf (by simp)

/-- Witness for C5: the spec example — columns `a = [1, null]`,
`b = [2, 3]`, sum over `[a, b]` yields the column `[3, 3]`. -/
theorem sum_rule_is_rowwise_null_as_zero_witness :
    (⟨["a", "b"], [[.int 1, .int 2], [.null, .int 3]]⟩ : Table).WF ∧
    (∃ df', (applyCalculations ⟨["a", "b"], [[.int 1, .int 2], [.null, .int 3]]⟩
        [{ name := "s", operation := .sum, columns := ["a", "b"] }]).success = true ∧
      (applyCalculations ⟨["a", "b"], [[.int 1, .int 2], [.null, .int 3]]⟩
        [{ name := "s", operation := .sum, columns := ["a", "b"] }]).result_df = some df' ∧
      getCol df' "s" =
        (⟨["a", "b"], [[.int 1, .int 2], [.null, .int 3]]⟩ : Table).rows.map (fun row =>
          Value.int (((["a", "b"].map (fun c =>
            intOrZero (cellAt ⟨["a", "b"], [[.int 1, .int 2], [.null, .int 3]]⟩ row c))).sum))) ∧
      getCol df' "s" = [.int 3, .int 3]) := by
  refine ⟨by decide, ?_⟩
  obtain ⟨df', h1, h2, h3⟩ := sum_rule_is_rowwise_null_as_zero
    ⟨["a", "b"], [[.int 1, .int 2], [.null, .int 3]]⟩
    { name := "s", operation := .sum, columns := ["a", "b"] }
    rfl (by decide) (by decide) (by decide)
  refine ⟨df', h1, h2, h3, ?_⟩
  rw [h3]
  decide

/-- The cleaned frame of the trim step, independent of its logging. -/
lemma cleaned_df_trimWhitespaceOp (st : CleanerState) :
    (trimWhitespaceOp st).cleaned_df = trimTable st.cleaned_df := by
  unfold trimWhitespaceOp logOp
  dsimp only
  split <;> rfl

/-- The cleaned frame of the case step, independent of its logging. -/
lemma cleaned_df_standardizeTextCase (st : CleanerState) (c : String) :
    (standardizeTextCase st c).cleaned_df = caseTable c st.cleaned_df := by
  unfold standardizeTextCase logOp
  dsimp only
  split <;> rfl

/-- With `handle_missing="drop"`, the missing-value step keeps exactly
the complete rows. -/
lemma rows_stepMissing_drop (o : CleaningOptions) (st : CleanerState)
    (h : o.handle_missing = "drop") :
    (stepMissing o st).cleaned_df.rows = st.cleaned_df.rows.filter rowComplete := by
  unfold stepMissing
  rw [h]
  rw [show (("drop" : String) != "keep") = true from rfl, if_pos rfl]
  unfold handleMissingValues
  rw [show (("drop" : String) == "drop") = true from rfl, if_pos rfl]
  unfold logOp dropNaTable
  dsimp only
  split <;> rfl

lemma trimVal_ne_null (v : Value) (h : v ≠ .null) : trimVal v ≠ .null := by
  cases v with
  | null => exact absurd rfl h
  | int z => simp [trimVal]
  | str s => simp [trimVal]
  | bool b => simp [trimVal]

lemma caseVal_ne_null (c : String) (v : Value) (h : v ≠ .null) : caseVal c v ≠ .null := by
  cases v with
  | null => exact absurd rfl h
  | int z => simp [caseVal]
  | bool b => simp [caseVal]
  | str s =>
    simp only [caseVal]
    split
    · simp
    · split
      · simp
      · split <;> simp

/-- Cell-wise table maps preserve missing-freeness when the cell function
does. -/
lemma noNull_map_rows (rows : List (List Value)) (f : Value → Value)
    (hf : ∀ v, v ≠ Value.null → f v ≠ Value.null)
    (h : ∀ r ∈ rows, ∀ v ∈ r, v ≠ Value.null) :
    ∀ r ∈ rows.map (fun r => r.map f), ∀ v ∈ r, v ≠ Value.null := by
  intro r' hr' v' hv'
  obtain ⟨r, hr, rfl⟩ := List.mem_map.mp hr'
  obtain ⟨v, hv, rfl⟩ := List.mem_map.mp hv'
  exact hf v (h r hr v hv)

lemma noNull_stepTrim (o : CleaningOptions) (st : CleanerState)
    (h : ∀ r ∈ st.cleaned_df.rows, ∀ v ∈ r, v ≠ Value.null) :
    ∀ r ∈ (stepTrim o st).cleaned_df.rows, ∀ v ∈ r, v ≠ Value.null := by
  unfold stepTrim
  split
  · rw [cleaned_df_trimWhitespaceOp]
    exact noNull_map_rows _ _ trimVal_ne_null h
  · exact h

lemma noNull_stepCase (o : CleaningOptions) (st : CleanerState)
    (h : ∀ r ∈ st.cleaned_df.rows, ∀ v ∈ r, v ≠ Value.null) :
    ∀ r ∈ (stepCase o st).cleaned_df.rows, ∀ v ∈ r, v ≠ Value.null := by
  unfold stepCase
  split
  · split
    · rw [cleaned_df_standardizeTextCase]
      exact noNull_map_rows _ _ (caseVal_ne_null _) h
    · exact h
  · exact h

lemma noNull_stepMissing_drop (o : CleaningOptions) (st : CleanerState)
    (h : o.handle_missing = "drop") :
    ∀ r ∈ (stepMissing o st).cleaned_df.rows, ∀ v ∈ r, v ≠ Value.null := by
  rw [rows_stepMissing_drop o st h]
  intro r hr v hv
  have hcomp : rowComplete r = true := (List.mem_filter.mp hr).2
  have := List.all_eq_true.mp hcomp v hv
  exact (isNull_eq_false_iff v).mp (by simpa using this)

/-- C6 (amended): after `clean` with `handle_missing="drop"` and no
declared date columns (date parsing runs after the drop and its
`errors="coerce"` can reintroduce missing cells), the resulting table
has no missing cell in any column; and with the other row-shaping
options off — `remove_duplicates` also removes fully non-missing rows,
trim and case rewrite cells — the surviving rows are exactly the fully
non-missing rows of the input, in order. -/
theorem clean_drop_removes_exactly_null_rows (t : Table) (o : CleaningOptions)
    (h1 : o.handle_missing = "drop") (h2 : o.date_columns = []) :
    (∀ r ∈ (cleanTable t o).1.rows, ∀ v ∈ r, v ≠ Value.null) ∧
    (o.remove_duplicates = false → o.trim_whitespace = false → o.text_case = none →
      (cleanTable t o).1.rows = t.rows.filter rowComplete) := by
  constructor
  · show ∀ r ∈ (clean ⟨t, t, []⟩ o).cleaned_df.rows, ∀ v ∈ r, v ≠ Value.null
    unfold clean
    rw [show stepDates o (stepCase o (stepTrim o (stepMissing o (stepRemoveDup o ⟨t, t, []⟩)))) =
        stepCase o (stepTrim o (stepMissing o (stepRemoveDup o ⟨t, t, []⟩))) from by
      unfold stepDates
      rw [h2]
      rfl]
    exact noNull_stepCase o _ (noNull_stepTrim o _ (noNull_stepMissing_drop o _ h1))
  · intro hd ht hc
    show (clean ⟨t, t, []⟩ o).cleaned_df.rows = t.rows.filter rowComplete
    unfold clean
    rw [show stepDates o (stepCase o (stepTrim o (stepMissing o (stepRemoveDup o ⟨t, t, []⟩)))) =
        stepCase o (stepTrim o (stepMissing o (stepRemoveDup o ⟨t, t, []⟩))) from by
      unfold stepDates
      rw [h2]
      rfl]
    unfold stepCase stepTrim stepRemoveDup
    rw [hc, ht, hd]
    simp only [Bool.false_eq_true, if_false]
    exact rows_stepMissing_drop o _ h1

/-- Witness for C6: a table with one missing cell keeps exactly its
complete row, and the result has no missing cell. -/
theorem clean_drop_removes_exactly_null_rows_witness :
    ({ handle_missing := "drop", trim_whitespace := false } : CleaningOptions).handle_missing =
      "drop" ∧
    (∀ r ∈ (cleanTable ⟨["a", "b"], [[.int 1, .null], [.int 2, .int 3]]⟩
        { handle_missing := "drop", trim_whitespace := false }).1.rows,
      ∀ v ∈ r, v ≠ Value.null) ∧
    (cleanTable ⟨["a", "b"], [[.int 1, .null], [.int 2, .int 3]]⟩
        { handle_missing := "drop", trim_whitespace := false }).1.rows =
      (⟨["a", "b"], [[.int 1, .null], [.int 2, .int 3]]⟩ : Table).rows.filter rowComplete ∧
    (⟨["a", "b"], [[.int 1, .null], [.int 2, .int 3]]⟩ : Table).rows.filter rowComplete =
      [[.int 2, .int 3]] :=
  ⟨rfl,
    (clean_drop_removes_exactly_null_rows _ _ rfl rfl).1,
    (clean_drop_removes_exactly_null_rows _ _ rfl rfl).2 rfl rfl rfl,
    by decide⟩

/-- C6 counterexample: the claim as stated — over EVERY `clean` call
with `handle_missing="drop"` — is false of the code on two counts.  With
a declared date column, `to_datetime(errors="coerce")` runs AFTER the
drop and turns an unparseable cell into a missing one, so the cleaned
table does contain a null (first two conjuncts).  With
`remove_duplicates` on, a fully non-missing duplicate row is removed as
well, so not only the null-containing rows are removed (last three
conjuncts). -/
theorem clean_drop_claim_counterexample :
    (cleanTable ⟨["d"], [[.str "oops"]]⟩
        { handle_missing := "drop", date_columns := ["d"] }).1.rows = [[Value.null]] ∧
    (∃ r ∈ (cleanTable ⟨["d"], [[.str "oops"]]⟩
        { handle_missing := "drop", date_columns := ["d"] }).1.rows, Value.null ∈ r) ∧
    (cleanTable ⟨["a"], [[.int 1], [.int 1]]⟩
        { remove_duplicates := true, handle_missing := "drop" }).1.rows = [[.int 1]] ∧
    (⟨["a"], [[.int 1], [.int 1]]⟩ : Table).rows.filter rowComplete =
      [[.int 1], [.int 1]] ∧
    (cleanTable ⟨["a"], [[.int 1], [.int 1]]⟩
        { remove_duplicates := true, handle_missing := "drop" }).1.rows ≠
      (⟨["a"], [[.int 1], [.int 1]]⟩ : Table).rows.filter rowComplete :=
  ⟨by decide, by decide, by decide, by decide, by decide⟩

/-- Invariant threaded through the heap steps: the observer reference `j`
still reads its original frame, is distinct from the working reference,
and is live. -/
def HeapInv (h0 : Heap) (j : Nat) (s : Heap × Nat) : Prop :=
  readRef s.1 j = readRef h0 j ∧ j ≠ s.2 ∧ j < s.1.length

lemma readRef_append (h : Heap) (t : Table) (j : Nat) (hj : j < h.length) :
    readRef (h ++ [t]) j = readRef h j := by
  unfold readRef
  rw [List.getD_append]
  exact hj

lemma readRef_set_ne (h : Heap) (i : Nat) (t : Table) (j : Nat) (hne : j ≠ i) :
    readRef (writeRef h i t) j = readRef h j := by
  unfold readRef writeRef
  simp [List.getD, List.getElem?_set_ne (Ne.symm hne)]

lemma allocStepP_inv (h0 : Heap) (j : Nat) (f : Table → Table) (s : Heap × Nat)
    (hs : HeapInv h0 j s) : HeapInv h0 j (allocStepP f s) := by
  obtain ⟨hr, _, hl⟩ := hs
  refine ⟨?_, ?_, ?_⟩
  · show readRef (s.1 ++ [_]) j = _
    rw [readRef_append _ _ _ hl]
    exact hr
  · show j ≠ s.1.length
    omega
  · show j < (s.1 ++ [_]).length
    simp
    omega

lemma writeStepP_inv (h0 : Heap) (j : Nat) (f : Table → Table) (s : Heap × Nat)
    (hs : HeapInv h0 j s) : HeapInv h0 j (writeStepP f s) := by
  obtain ⟨hr, hne, hl⟩ := hs
  refine ⟨?_, hne, ?_⟩
  · show readRef (writeRef s.1 s.2 _) j = _
    rw [readRef_set_ne _ _ _ _ hne]
    exact hr
  · show j < (writeRef s.1 s.2 _).length
    unfold writeRef
    simpa using hl

lemma condStep_inv (h0 : Heap) (j : Nat) (b : Bool) (step : Heap × Nat → Heap × Nat)
    (s : Heap × Nat) (hstep : ∀ s', HeapInv h0 j s' → HeapInv h0 j (step s'))
    (hs : HeapInv h0 j s) : HeapInv h0 j (condStep b step s) := by
  unfold condStep
  split
  · exact hstep s hs
  · exact hs

lemma applyRulesHeap_inv :
    ∀ (rules : List Rule) (h : Heap) (dfRef j : Nat), j ≠ dfRef → j < h.length →
      readRef (applyRulesHeap h dfRef rules).1 j = readRef h j ∧
        j < (applyRulesHeap h dfRef rules).1.length := by
  intro rules
  induction rules with
  | nil => intro h dfRef j _ hj; exact ⟨rfl, hj⟩
  | cons r rs ih =>
    intro h dfRef j hne hj
    unfold applyRulesHeap
    cases happ : applyRule { df := readRef h dfRef, original_columns := [], applied_calculations := [] } r with
    | ok st =>
      simp only [happ]
      have hh := ih (writeRef h dfRef st.df) dfRef j hne (by unfold writeRef; simpa using hj)
      refine ⟨?_, hh.2⟩
      rw [hh.1, readRef_set_ne _ _ _ _ hne]
    | error e =>
      simp [happ, hj]

/-- C8: `clean` and `apply_calculations` are pure with respect to the
caller's frame.  In the heap model the caller's reference still holds the
very same frame after either call (both constructors take a copy before
any mutation), and the frame reference handed back is a different,
freshly allocated object. -/
theorem services_leave_caller_frame_unchanged (h : Heap) (caller : Nat)
    (o : CleaningOptions) (rules : List Rule) (hc : caller < h.length) :
    readRef (cleanHeap h caller o).1 caller = readRef h caller ∧
    (cleanHeap h caller o).2 ≠ caller ∧
    readRef (calcHeap h caller rules).1 caller = readRef h caller ∧
    (∀ ref, (calcHeap h caller rules).2 = some ref → ref ≠ caller) := by
  have hinv0 : HeapInv h caller (allocRef h (readRef h caller)) := by
    refine ⟨readRef_append _ _ _ hc, ?_, ?_⟩
    · show caller ≠ h.length
      omega
    · show caller < (h ++ [_]).length
      simp
      omega
  have hclean : HeapInv h caller (cleanHeap h caller o) := by
    unfold cleanHeap
    exact condStep_inv _ _ _ _ _ (fun s' hs' => writeStepP_inv _ _ _ _ hs')
      (condStep_inv _ _ _ _ _ (fun s' hs' => writeStepP_inv _ _ _ _ hs')
        (condStep_inv _ _ _ _ _ (fun s' hs' => writeStepP_inv _ _ _ _ hs')
          (condStep_inv _ _ _ _ _ (fun s' hs' => allocStepP_inv _ _ _ _ hs')
            (condStep_inv _ _ _ _ _ (fun s' hs' => allocStepP_inv _ _ _ _ hs') hinv0))))
  have hloop := applyRulesHeap_inv rules (h ++ [readRef h caller]) h.length caller
    (by omega) (by simp; omega)
  have hcalcheap : readRef (calcHeap h caller rules).1 caller = readRef h caller := by
    unfold calcHeap allocRef
    dsimp only
    split
    · rw [hloop.1, readRef_append _ _ _ hc]
    · rw [hloop.1, readRef_append _ _ _ hc]
  refine ⟨hclean.1, fun hx => hclean.2.1 hx.symm, hcalcheap, ?_⟩
  intro ref href
  unfold calcHeap allocRef at href
  dsimp only at href
  revert href
  split
  · intro href
    cases href
    omega
  · intro href
    cases href

/-- Witness for C8: a one-frame heap; both services leave slot 0 intact
and hand back a different reference. -/
theorem services_leave_caller_frame_unchanged_witness :
    (0 : Nat) < ([⟨["a"], [[.int 1, .null]]⟩] : Heap).length ∧
    (readRef (cleanHeap [⟨["a"], [[.int 1, .null]]⟩] 0 { handle_missing := "drop" }).1 0 =
        readRef [⟨["a"], [[.int 1, .null]]⟩] 0 ∧
      (cleanHeap [⟨["a"], [[.int 1, .null]]⟩] 0 { handle_missing := "drop" }).2 ≠ 0 ∧
      readRef (calcHeap [⟨["a"], [[.int 1, .null]]⟩] 0
          [{ name := "s", operation := .sum, columns := ["a"] }]).1 0 =
        readRef [⟨["a"], [[.int 1, .null]]⟩] 0 ∧
      (∀ ref, (calcHeap [⟨["a"], [[.int 1, .null]]⟩] 0
          [{ name := "s", operation := .sum, columns := ["a"] }]).2 = some ref → ref ≠ 0)) :=
  ⟨by decide,
    services_leave_caller_frame_unchanged [⟨["a"], [[.int 1, .null]]⟩] 0
      { handle_missing := "drop" } [{ name := "s", operation := .sum, columns := ["a"] }]
      (by decide)⟩

lemma tleB_iff (p q : Nat × Int × List Char) :
    tleB p q = true ↔
      (p.1 < q.1 ∨ (p.1 = q.1 ∧ (p.2.1 < q.2.1 ∨ (p.2.1 = q.2.1 ∧ p.2.2 ≤ q.2.2)))) := by
  unfold tleB
  simp [Bool.or_eq_true, Bool.and_eq_true, decide_eq_true_eq, beq_iff_eq]

lemma tleB_total (p q : Nat × Int × List Char) : tleB p q = true ∨ tleB q p = true := by
  rw [tleB_iff, tleB_iff]
  rcases Nat.lt_trichotomy p.1 q.1 with h | h | h
  · exact Or.inl (Or.inl h)
  · rcases Int.lt_trichotomy p.2.1 q.2.1 with h2 | h2 | h2
    · exact Or.inl (Or.inr ⟨h, Or.inl h2⟩)
    · rcases le_total p.2.2 q.2.2 with h3 | h3
      · exact Or.inl (Or.inr ⟨h, Or.inr ⟨h2, h3⟩⟩)
      · exact Or.inr (Or.inr ⟨h.symm, Or.inr ⟨h2.symm, h3⟩⟩)
    · exact Or.inr (Or.inr ⟨h.symm, Or.inl h2⟩)
  · exact Or.inr (Or.inl h)

lemma tleB_trans (p q r : Nat × Int × List Char)
    (h1 : tleB p q = true) (h2 : tleB q r = true) : tleB p r = true := by
  rw [tleB_iff] at h1 h2 ⊢
  rcases h1 with h1a | ⟨h1e, h1b | ⟨h1be, h1c⟩⟩ <;>
    rcases h2 with h2a | ⟨h2e, h2b | ⟨h2be, h2c⟩⟩
  · exact Or.inl (by omega)
  · exact Or.inl (by omega)
  · exact Or.inl (by omega)
  · exact Or.inl (by omega)
  · exact Or.inr ⟨by omega, Or.inl (by omega)⟩
  · exact Or.inr ⟨by omega, Or.inl (by omega)⟩
  · exact Or.inl (by omega)
  · exact Or.inr ⟨by omega, Or.inl (by omega)⟩
  · exact Or.inr ⟨by omega, Or.inr ⟨by omega, le_trans h1c h2c⟩⟩

lemma tleB_antisymm (p q : Nat × Int × List Char)
    (h1 : tleB p q = true) (h2 : tleB q p = true) : p = q := by
  rw [tleB_iff] at h1 h2
  obtain ⟨p1, p2, p3⟩ := p
  obtain ⟨q1, q2, q3⟩ := q
  simp only at h1 h2
  have e1 : p1 = q1 := by omega
  subst e1
  have e2 : p2 = q2 := by
    rcases h1 with h | ⟨_, h | ⟨h, _⟩⟩ <;> rcases h2 with h' | ⟨_, h' | ⟨h', _⟩⟩ <;> omega
  subst e2
  have e3 : p3 = q3 := by
    rcases h1 with h | ⟨_, h | ⟨_, h⟩⟩
    · omega
    · omega
    · rcases h2 with h' | ⟨_, h' | ⟨_, h'⟩⟩
      · omega
      · omega
      · exact le_antisymm h h'
  subst e3
  rfl

lemma keyLe_total : ∀ a b : List Value, keyLe a b = true ∨ keyLe b a = true := by
  intro a
  induction a with
  | nil => intro b; exact Or.inl rfl
  | cons x xs ih =>
    intro b
    cases b with
    | nil => exact Or.inr rfl
    | cons y ys =>
      simp only [keyLe]
      by_cases hxy : keyTriple x = keyTriple y
      · rw [if_pos hxy, if_pos hxy.symm]
        exact ih ys
      · rw [if_neg hxy, if_neg (Ne.symm hxy)]
        exact tleB_total _ _

lemma keyLe_trans : ∀ a b c : List Value,
    keyLe a b = true → keyLe b c = true → keyLe a c = true := by
  intro a
  induction a with
  | nil => intro b c _ _; rfl
  | cons x xs ih =>
    intro b c h1 h2
    cases b with
    | nil => simp [keyLe] at h1
    | cons y ys =>
      cases c with
      | nil => simp [keyLe] at h2
      | cons z zs =>
        simp only [keyLe] at h1 h2 ⊢
        by_cases hxy : keyTriple x = keyTriple y <;> by_cases hyz : keyTriple y = keyTriple z
        · rw [if_pos hxy] at h1
          rw [if_pos hyz] at h2
          rw [if_pos (hxy.trans hyz)]
          exact ih ys zs h1 h2
        · rw [if_pos hxy] at h1
          rw [if_neg hyz] at h2
          rw [if_neg (fun hxz => hyz (hxy ▸ hxz))]
          show tleB (keyTriple x) (keyTriple z) = true
          rw [hxy]
          exact h2
        · rw [if_neg hxy] at h1
          rw [if_pos hyz] at h2
          rw [if_neg (fun hxz => hxy (hyz ▸ hxz))]
          show tleB (keyTriple x) (keyTriple z) = true
          rw [← hyz]
          exact h1
        · rw [if_neg hxy] at h1
          rw [if_neg hyz] at h2
          have hxz : keyTriple x ≠ keyTriple z := fun hxz =>
            hxy (tleB_antisymm _ _ h1 (by rw [hxz]; exact h2))
          rw [if_neg hxz]
          exact tleB_trans _ _ _ h1 h2

instance : IsTotal (List Value) keyLeR :=
  ⟨keyLe_total⟩

instance : IsTrans (List Value) keyLeR :=
  ⟨keyLe_trans⟩

end ExcelAutomation
